import Mathlib

/-!
Verification of the node-lifecycle and config-merge component of ccm's
`ccmlib/dse_node.py` (class `DseNode`).

The structured-config part (`_update_dse_yaml`) works on YAML mappings;
we embed a YAML value as `Val` and a mapping as an association list of
string keys.  Python dictionaries have unique keys; where a proof needs
that fact it appears as an explicit `Nodup` hypothesis.  `yaml.safe_dump`
writes mappings with their keys sorted, so on-disk file content is the
key-sorted form of the document; `canon` models that.

The process-lifecycle part (`start`, `stop`, `_stop_agent`, `kinit`,
`klist`, `kdestroy`, `import_dse_config_files`,
`set_dse_configuration_options`) is embedded as pure functions that
return the trace of external effects (`ExtCall` / `CfgEvent` lists)
together with a result or a raised Python error (`PyResult`).
-/

/-- A YAML scalar or mapping, as manipulated by `_update_dse_yaml`. -/
inductive Val where
  | str : String → Val
  | int : Int → Val
  | map : List (String × Val) → Val

/-- A YAML mapping (Python dict) as an association list. -/
abbrev Doc := List (String × Val)

/-- Python dict lookup `d[k]` (first binding wins; real dicts have unique keys). -/
def lookupD {α : Type} : List (String × α) → String → Option α
  | [], _ => none
  | p :: t, k => if p.1 = k then some p.2 else lookupD t k

/-- Python dict assignment `d[k] = v`: replace the binding in place, or append. -/
def setKey {α : Type} : List (String × α) → String → α → List (String × α)
  | [], k, v => [(k, v)]
  | p :: t, k, v => if p.1 = k then (k, v) :: t else p :: setKey t k v

/-- Python `del d[k]` (on a dict with unique keys). -/
def delKey {α : Type} : List (String × α) → String → List (String × α)
  | [], _ => []
  | p :: t, k => if p.1 = k then delKey t k else p :: delKey t k

/-- The keys of an association list. -/
def keysD {α : Type} (l : List (String × α)) : List String := l.map Prod.fst

/-- Write every binding of `l` into `m` in order, each by dict assignment.
This is the Python loop `for option in o: m[option] = o[option]` and also
the effect of the `dict(pairs)` constructor (later bindings win). -/
def putAll {α : Type} (m : List (String × α)) (l : List (String × α)) : List (String × α) :=
  l.foldl (fun a p => setKey a p.1 p.2) m

/-- Python `dict(pairs)`: a dict built from a pair list, later pairs winning. -/
def dictPairs {α : Type} (l : List (String × α)) : List (String × α) :=
  putAll [] l

/-- One iteration of the override loop of `_update_dse_yaml` for key `p.1`
with override value `p.2` (`none` is Python `None`, the deletion marker):

  * `None`: `del data[name]`, a `KeyError` being swallowed;
  * existing value a dict: `for option in v: data[name][option] = v[option]`,
    which merges one level deep when `v` is a mapping, does nothing when `v`
    is the empty string (iterating `""` yields nothing), and raises a
    `TypeError` for any other non-mapping `v`;
  * otherwise (existing value not a dict, or key missing → `KeyError`
    caught): plain assignment `data[name] = v`. -/
def applyOption (d : Doc) (p : String × Option Val) : Except Unit Doc :=
  match p.2 with
  | none => .ok (delKey d p.1)
  | some v =>
    match lookupD d p.1 with
    | some (Val.map m) =>
      match v with
      | Val.map o => .ok (setKey d p.1 (Val.map (putAll m o)))
      | Val.str s => if s = "" then .ok d else .error ()
      | Val.int _ => .error ()
    | some _ => .ok (setKey d p.1 v)
    | none => .ok (setKey d p.1 v)

/-- The whole override loop of `_update_dse_yaml`, stopping at the first
uncaught Python exception. -/
def applyOptions : Doc → List (String × Option Val) → Except Unit Doc
  | d, [] => .ok d
  | d, p :: t =>
    match applyOption d p with
    | .ok d' => applyOptions d' t
    | .error e => .error e

/-- `_update_dse_yaml`: set `system_key_directory`, then apply the
cluster-level overrides layered with the node-level overrides
(`dict(cluster.items() + node.items())` — node pairs come second, so a
node binding overwrites a cluster binding for the same key). -/
def update_dse_yaml (doc : Doc) (skd : String) (cluster node : List (String × Option Val)) :
    Except Unit Doc :=
  applyOptions (setKey doc "system_key_directory" (Val.str skd)) (dictPairs (cluster ++ node))

/-- The effect of one override on the binding of its own key: the value-level
summary of `applyOption` (used to characterise the loop key by key). -/
def keyResult (cur : Option Val) (ov : Option Val) : Except Unit (Option Val) :=
  match ov with
  | none => .ok none
  | some v =>
    match cur with
    | some (Val.map m) =>
      match v with
      | Val.map o => .ok (some (Val.map (putAll m o)))
      | Val.str s => if s = "" then .ok (some (Val.map m)) else .error ()
      | Val.int _ => .error ()
    | _ => .ok (some v)

/-- Whether a value is a YAML mapping (`isinstance(x, dict)`). -/
def isMap : Val → Bool
  | Val.map _ => true
  | _ => false

/-- Well-formedness of one override value, as a boolean: any mapping carried
by it has unique keys.  True of every value that came from a Python dict. -/
def wfOverrideB : Option Val → Bool
  | some (Val.map o) => decide (keysD o).Nodup
  | _ => true

/-- On-disk content of a document: `yaml.safe_dump` writes mapping keys in
sorted order, so two documents with the same `canon` produce the same file. -/
def canon (d : Doc) : Doc :=
  List.insertionSort (fun a b => a.1 ≤ b.1) d

/-- Lookup of a nested value along a key path (for stating counterexamples). -/
def pathLookup : Doc → List String → Option Val
  | _, [] => none
  | d, [k] => lookupD d k
  | d, k :: ks =>
    match lookupD d k with
    | some (Val.map m) => pathLookup m ks
    | _ => none

/-!  XML property lists (`set_xml_configuration_options`).

An XML configuration document is a list of `property` elements, each with a
`name` child and a `value` child; the `value` text may be absent (lxml
`None`), hence `Option String`. -/

/-- One `property` element of an XML property-list document. -/
structure XmlProperty where
  name : String
  value : Option String
deriving DecidableEq

/-- Python `value is None or len(value) == 0`. -/
def isEmptyValue : Option String → Bool
  | none => true
  | some s => decide (s.length = 0)

/-- Whether some property element has the given name
(the xpath `./property/name[text()=name]/..` finds a match). -/
def containsName (doc : List XmlProperty) (nm : String) : Bool :=
  doc.any (fun p => p.name == nm)

/-- Remove the first property element with the given name
(`configuration.remove(properties[0])`). -/
def removeFirstProperty : List XmlProperty → String → List XmlProperty
  | [], _ => []
  | p :: t, nm => if p.name = nm then t else p :: removeFirstProperty t nm

/-- Replace the value text of the first property element with the given name
(`properties[0].xpath('./value')[0].text = value`). -/
def replaceFirstValue : List XmlProperty → String → Option String → List XmlProperty
  | [], _, _ => []
  | p :: t, nm, v =>
    if p.name = nm then { name := p.name, value := v } :: t else p :: replaceFirstValue t nm v

/-- The body of the override loop of `set_xml_configuration_options` for a
single `(name, value)` pair: if a property with this name exists, either
remove it (empty/`None` value) or update its value text in place; if none
exists, append a fresh `(name, value)` property element at the end. -/
def applyXmlOption (doc : List XmlProperty) (nm : String) (v : Option String) :
    List XmlProperty :=
  if containsName doc nm then
    if isEmptyValue v then removeFirstProperty doc nm else replaceFirstValue doc nm v
  else doc ++ [{ name := nm, value := v }]

/-- `set_xml_configuration_options` on the parsed document: the override
pairs are applied in encounter order. -/
def set_xml_configuration_options (doc : List XmlProperty)
    (values : List (String × Option String)) : List XmlProperty :=
  values.foldl (fun d p => applyXmlOption d p.1 p.2) doc

/-!  Process lifecycle (`start`, `stop`, `_stop_agent`, tool wrappers).

These methods perform external effects (socket checks, process spawns,
signals, file writes).  We embed them as pure functions returning the list
of external calls made, in order, together with either a result or the
Python exception that escaped. -/

/-- An external effect performed by a lifecycle method. -/
inductive ExtCall where
  | checkSocket : String → ExtCall
  | copyFile : String → String → ExtCall
  | chmodExec : String → ExtCall
  | popen : List String → List (String × String) → ExtCall
  | updatePid : ExtCall
  | watchLogAlive : String → ExtCall
  | watchLogCql : ExtCall
  | startAgent : ExtCall
  | signalStopNode : ExtCall
  | readFile : String → ExtCall
  | kill : Int → ExtCall
  | removeFile : String → ExtCall
deriving DecidableEq

/-- A config-file effect performed by the config import path. -/
inductive CfgEvent where
  | updateConfig : CfgEvent
  | makeDirs : CfgEvent
  | copyBase : CfgEvent
  | writeYaml : CfgEvent
  | recordOverride : String → CfgEvent
deriving DecidableEq

/-- The Python exceptions that can escape the embedded methods. -/
inductive PyError where
  | nodeError : PyError
  | portError : PyError
  | valueError : PyError
  | argumentError : PyError
  | attributeError : PyError
  | typeError : PyError
  | unboundLocalError : PyError
deriving DecidableEq

/-- Outcome of a method: the effects it performed, in order, and either a
normal result or the exception that escaped (effects already performed
before the raise are kept). -/
inductive PyResult (ε : Type) (α : Type) where
  | ok : List ε → α → PyResult ε α
  | raised : List ε → PyError → PyResult ε α
deriving DecidableEq

/-- The effect trace of an outcome. -/
def PyResult.events {ε α : Type} : PyResult ε α → List ε
  | .ok evs _ => evs
  | .raised evs _ => evs

/-- Caller-controlled options of `DseNode.start` (the keyword arguments). -/
structure StartOpts where
  join_ring : Bool
  no_wait : Bool
  update_pid : Bool
  wait_other_notice : Bool
  replace_token : Option String
  replace_address : Option String
  jvm_args : List String
  wait_for_binary_proto : Bool
  use_jna : Bool
  debug : Bool

/-- The node, cluster and host state that `start` and the tool wrappers
read: whether the recorded pid is live, the bound interfaces, the running
peers, the workload tags, the cluster authentication mode and paths, the
base environment from `make_dse_env`, and how the host behaves (whether
the checked sockets are free and whether the spawned process stays live). -/
structure StartCtx where
  running : Bool
  interfaces : List (Option String)
  running_peers : List String
  workload : Option (List String)
  authn : String
  cluster_path : String
  node_path : String
  install_dir : String
  thrift_ip : String
  hasOpscenter : Bool
  baseEnv : List (String × String)
  sockets_free : Bool
  spawn_lives : Bool

/-- Python `str` of a boolean. -/
def pyBool : Bool → String
  | true => "True"
  | false => "False"

/-- `int(ip[-1])`: the last character of the address, as a digit;
`none` when that raises (empty string or non-digit). -/
def lastCharDigit (s : String) : Option Nat :=
  match s.data.getLast? with
  | some c => if c.isDigit then some (c.toNat - 48) else none
  | none => none

namespace DseNode

/-- The debug part of the start environment: when `debug`, set
`JVM_EXTRA_OPTS` from the last digit of the thrift address
(`2345 + int(ip[-1])`), raising when that is not a digit. -/
def debug_env (ctx : StartCtx) (debug : Bool) : Except Unit (List (String × String)) :=
  if debug then
    match lastCharDigit ctx.thrift_ip with
    | some dgt =>
        Except.ok (setKey ctx.baseEnv "JVM_EXTRA_OPTS"
          ("-Xrunjdwp:transport=dt_socket,address=" ++ toString (2345 + dgt) ++
           ",server=y,suspend=n"))
    | none => Except.error ()
  else Except.ok ctx.baseEnv

/-- The environment assembled by `start`: the base `make_dse_env`
environment, plus `JVM_EXTRA_OPTS` when `debug`, plus the kerberos
settings (`JVM_OPTS` and `KRB5_CONFIG` pointing at the cluster's
`krb5.conf`) when the cluster authentication mode is kerberos. -/
def make_start_env (ctx : StartCtx) (debug : Bool) :
    Except Unit (List (String × String)) :=
  match debug_env ctx debug with
  | .error e => .error e
  | .ok e1 =>
    .ok (if ctx.authn = "kerberos" then
           setKey (setKey e1 "JVM_OPTS"
               ("-Djava.security.krb5.conf=" ++ ctx.cluster_path ++ "/krb5.conf"))
             "KRB5_CONFIG" (ctx.cluster_path ++ "/krb5.conf")
         else e1)

/-- The fixed flag each workload tag contributes to the command line. -/
def workload_args (w : Option (List String)) : List String :=
  match w with
  | none => []
  | some ws =>
    (if "hadoop" ∈ ws then ["-t"] else []) ++
    (if "solr" ∈ ws then ["-s"] else []) ++
    (if "spark" ∈ ws then ["-k"] else []) ++
    (if "cfs" ∈ ws then ["-c"] else [])

/-- The argument vector `start` assembles for the launcher binary. -/
def build_start_args (ctx : StartCtx) (o : StartOpts) : List String :=
  [ctx.node_path ++ "/bin/dse", "cassandra"] ++ workload_args ctx.workload ++
  ["-p", ctx.node_path ++ "/cassandra.pid",
   "-Dcassandra.join_ring=" ++ pyBool o.join_ring] ++
  (match o.replace_token with
   | some t => ["-Dcassandra.replace_token=" ++ t]
   | none => []) ++
  (match o.replace_address with
   | some a => ["-Dcassandra.replace_address=" ++ a]
   | none => []) ++
  (if o.use_jna then [] else ["-Dcassandra.boot_without_jna=true"]) ++
  o.jvm_args

/-- `DseNode.start` (posix path): raise `NodeError` ("already running") at
once when the recorded pid is live; otherwise check each bound interface
(skipped under replace-address semantics), copy and chmod the launcher,
assemble environment and arguments, spawn, record the pid, perform the
requested log waits, and start the agent when OpsCenter is enabled. -/
def start (ctx : StartCtx) (o : StartOpts) :
    PyResult ExtCall (List String × List (String × String)) :=
  if ctx.running then .raised [] .nodeError
  else
    let checkEvs : List ExtCall :=
      if o.replace_address = none then (ctx.interfaces.filterMap id).map ExtCall.checkSocket
      else []
    if checkEvs ≠ [] ∧ ¬ ctx.sockets_free then .raised checkEvs .portError
    else
      let evs1 := checkEvs ++
        [ExtCall.copyFile (ctx.install_dir ++ "/bin/dse") (ctx.node_path ++ "/bin"),
         ExtCall.chmodExec (ctx.node_path ++ "/bin/dse")]
      match make_start_env ctx o.debug with
      | .error _ => .raised evs1 .valueError
      | .ok env =>
        let args := build_start_args ctx o
        let evs2 := evs1 ++ [ExtCall.popen args env]
        if o.update_pid ∧ ¬ ctx.spawn_lives then
          .raised (evs2 ++ [ExtCall.updatePid]) .nodeError
        else
          let evs3 := evs2 ++ (if o.update_pid then [ExtCall.updatePid] else [])
          let evs4 := evs3 ++
            (if o.wait_other_notice then ctx.running_peers.map ExtCall.watchLogAlive else [])
          let evs5 := evs4 ++ (if o.wait_for_binary_proto then [ExtCall.watchLogCql] else [])
          let evs6 := evs5 ++ (if ctx.hasOpscenter then [ExtCall.startAgent] else [])
          .ok evs6 (args, env)

end DseNode

/-- Modelled from the spec: `Node.stop` of `ccmlib/node.py` is not under
src/; per spec 4.4 it signals the underlying process (gentle cooperative
signal with timeout, else forceful kill) and waits, returning whether the
node was running.  The gentle/forceful choice selects the signal but not
the shape of the trace, which we record as one node-signal effect. -/
def Node.stop (running : Bool) (gently : Bool) : List ExtCall × Bool :=
  if running then ([ExtCall.signalStopNode], true) else ([], false)

namespace DseNode

/-- `_stop_agent`, embedded faithfully to its (mis-indented) control flow:
the local `pidfile` is bound only under the directory-existence check, but
the following `if os.path.exists(pidfile)` is outside that check, so when
the agent directory does not exist the method raises `UnboundLocalError`
before performing any agent operation.  When the directory and pid file
exist it reads the pid, sends `SIGKILL` (ignoring `OSError`) and removes
the pid file. -/
def stop_agent (dirExists pidFileExists : Bool) (pid : Int) :
    PyResult ExtCall Bool :=
  match (if dirExists then some "datastax-agent.pid" else none) with
  | none => .raised [] .unboundLocalError
  | some pidfile =>
    if pidFileExists then
      .ok [ExtCall.readFile pidfile, ExtCall.kill pid, ExtCall.removeFile pidfile] false
    else .ok [] pidFileExists

/-- `DseNode.stop`: first the base-class stop (which signals and waits on
the node process), then — only if OpsCenter is enabled for the cluster —
`_stop_agent`; an exception from the agent path escapes after the node
process was already stopped. -/
def stop (hasOpscenter running gently : Bool)
    (agentDirExists agentPidFileExists : Bool) (agentPid : Int) :
    PyResult ExtCall Bool :=
  let nodePart := Node.stop running gently
  if hasOpscenter then
    match stop_agent agentDirExists agentPidFileExists agentPid with
    | .ok evs2 _ => .ok (nodePart.1 ++ evs2) nodePart.2
    | .raised evs2 e => .raised (nodePart.1 ++ evs2) e
  else .ok nodePart.1 nodePart.2

/-- `kinit`: requires kerberos mode before doing anything; then invokes the
external `kinit` with the kerberos environment. -/
def kinit (ctx : StartCtx) (principal : String) : PyResult ExtCall Unit :=
  if ctx.authn = "kerberos" then
    .ok [ExtCall.popen ["kinit", principal]
          (setKey (setKey ctx.baseEnv "KRB5_CONFIG" (ctx.cluster_path ++ "/krb5.conf"))
            "KRB5CCNAME" (ctx.node_path ++ "/krb5_ticket"))] ()
  else .raised [] .argumentError

/-- `klist`: same precondition and environment as `kinit`. -/
def klist (ctx : StartCtx) : PyResult ExtCall Unit :=
  if ctx.authn = "kerberos" then
    .ok [ExtCall.popen ["klist"]
          (setKey (setKey ctx.baseEnv "KRB5_CONFIG" (ctx.cluster_path ++ "/krb5.conf"))
            "KRB5CCNAME" (ctx.node_path ++ "/krb5_ticket"))] ()
  else .raised [] .argumentError

/-- `kdestroy`: same precondition and environment as `kinit`. -/
def kdestroy (ctx : StartCtx) : PyResult ExtCall Unit :=
  if ctx.authn = "kerberos" then
    .ok [ExtCall.popen ["kdestroy"]
          (setKey (setKey ctx.baseEnv "KRB5_CONFIG" (ctx.cluster_path ++ "/krb5.conf"))
            "KRB5CCNAME" (ctx.node_path ++ "/krb5_ticket"))] ()
  else .raised [] .argumentError

/-- `import_dse_config_files`: update the tool config, ensure the target
conf directory exists, copy the fresh base config tree from the install
root over whatever was there, and only then merge the overrides into the
freshly copied document (reading `self._dse_config_options` — which, when
that attribute was never initialised, raises `AttributeError` after the
copy but before the merged document is written back).  `priorYaml` is the
document content before the copy; the copy discards it. -/
def import_dse_config_files (hasAttr dirExists : Bool) (priorYaml installBase : Doc)
    (skd : String) (cluster selfOpts : List (String × Option Val)) :
    PyResult CfgEvent Doc :=
  let evs := [CfgEvent.updateConfig] ++ (if dirExists then [] else [CfgEvent.makeDirs]) ++
    [CfgEvent.copyBase]
  if hasAttr then
    match update_dse_yaml installBase skd cluster selfOpts with
    | .ok d => .ok (evs ++ [CfgEvent.writeYaml]) d
    | .error _ => .raised evs .typeError
  else .raised evs .attributeError

/-- `set_dse_configuration_options`: when `values` is not `None`, record
each pair into `self._dse_config_options` (the first such access raises
`AttributeError` when the constructor never initialised that attribute,
because `__init__` bound the empty dict to a local variable); then
re-import the config files. -/
def set_dse_configuration_options (hasAttr dirExists : Bool) (priorYaml installBase : Doc)
    (skd : String) (cluster stored : List (String × Option Val))
    (values : Option (List (String × Option Val))) : PyResult CfgEvent Doc :=
  match values with
  | none => import_dse_config_files hasAttr dirExists priorYaml installBase skd cluster stored
  | some vs =>
    match vs with
    | [] => import_dse_config_files hasAttr dirExists priorYaml installBase skd cluster stored
    | _ :: _ =>
      if hasAttr then
        let recEvs := vs.map (fun p => CfgEvent.recordOverride p.1)
        match import_dse_config_files hasAttr dirExists priorYaml installBase skd cluster
            (putAll stored vs) with
        | .ok evs d => .ok (recEvs ++ evs) d
        | .raised evs e => .raised (recEvs ++ evs) e
      else .raised [] .attributeError

end DseNode

/-- Whether an effect belongs to the agent-stop path. -/
def agentOp : ExtCall → Bool
  | ExtCall.readFile _ => true
  | ExtCall.kill _ => true
  | ExtCall.removeFile _ => true
  | _ => false

/-- The order asserted by the spec for `stop`: every agent operation in the
trace comes before every node-process signal. -/
def agentStoppedBeforeSignal (evs : List ExtCall) : Prop :=
  ∀ i j : Fin evs.length, evs.get i = ExtCall.signalStopNode →
    agentOp (evs.get j) = true → j.val < i.val

instance : DecidablePred agentStoppedBeforeSignal := by
  intro evs
  unfold agentStoppedBeforeSignal
  infer_instance

/-!  Helper lemmas about dict operations. -/

theorem lookupD_setKey_self {α : Type} (l : List (String × α)) (k : String) (v : α) :
    lookupD (setKey l k v) k = some v := by
  induction l with
  | nil => simp [setKey, lookupD]
  | cons p t ih =>
    by_cases h : p.1 = k
    · simp [setKey, h, lookupD]
    · simp [setKey, h, lookupD, ih]

theorem lookupD_setKey_ne {α : Type} {l : List (String × α)} {j k : String} (v : α)
    (h : j ≠ k) : lookupD (setKey l k v) j = lookupD l j := by
  induction l with
  | nil =>
    simp only [setKey, lookupD]
    rw [if_neg (fun hh : k = j => h hh.symm)]
  | cons p t ih =>
    by_cases hp : p.1 = k
    · simp only [setKey, if_pos hp, lookupD]
      rw [if_neg (fun hh : k = j => h hh.symm), if_neg (fun hh : p.1 = j => h (hh.symm.trans hp))]
    · simp only [setKey, if_neg hp, lookupD]
      by_cases hj : p.1 = j
      · rw [if_pos hj, if_pos hj]
      · rw [if_neg hj, if_neg hj]
        exact ih

theorem lookupD_delKey_self {α : Type} (l : List (String × α)) (k : String) :
    lookupD (delKey l k) k = none := by
  induction l with
  | nil => simp [delKey, lookupD]
  | cons p t ih =>
    by_cases h : p.1 = k
    · simp [delKey, h, ih]
    · simp [delKey, h, lookupD, ih]

theorem lookupD_delKey_ne {α : Type} {l : List (String × α)} {j k : String}
    (h : j ≠ k) : lookupD (delKey l k) j = lookupD l j := by
  induction l with
  | nil => rfl
  | cons p t ih =>
    by_cases hp : p.1 = k
    · simp only [delKey, if_pos hp, lookupD]
      rw [if_neg (fun hh : p.1 = j => h (hh.symm.trans hp))]
      exact ih
    · simp only [delKey, if_neg hp, lookupD]
      by_cases hj : p.1 = j
      · rw [if_pos hj, if_pos hj]
      · rw [if_neg hj, if_neg hj]
        exact ih

theorem lookupD_eq_none_iff {α : Type} {l : List (String × α)} {k : String} :
    lookupD l k = none ↔ k ∉ keysD l := by
  induction l with
  | nil => simp [lookupD, keysD]
  | cons p t ih =>
    by_cases h : p.1 = k
    · constructor
      · intro hcontra
        simp [lookupD, h] at hcontra
      · intro hk
        exact absurd (List.mem_cons.mpr (Or.inl h.symm)) hk
    · simp only [lookupD, if_neg h, keysD, List.map_cons, List.mem_cons]
      rw [ih]
      constructor
      · intro hk hor
        rcases hor with h1 | h1
        · exact h h1.symm
        · exact hk h1
      · intro hk h1
        exact hk (Or.inr h1)

theorem lookupD_mem {α : Type} {l : List (String × α)} {k : String} {v : α}
    (h : lookupD l k = some v) : (k, v) ∈ l := by
  induction l with
  | nil => simp [lookupD] at h
  | cons p t ih =>
    rcases p with ⟨pk, pv⟩
    by_cases hp : pk = k
    · subst hp
      simp [lookupD] at h
      subst h
      exact List.mem_cons_self _ _
    · simp [lookupD, hp] at h
      exact List.mem_cons_of_mem _ (ih h)

theorem mem_lookupD_of_nodup {α : Type} {l : List (String × α)} {k : String} {v : α}
    (hn : (keysD l).Nodup) (h : (k, v) ∈ l) : lookupD l k = some v := by
  induction l with
  | nil => cases h
  | cons p t ih =>
    rcases p with ⟨pk, pv⟩
    simp only [keysD, List.map_cons, List.nodup_cons] at hn
    rcases List.mem_cons.mp h with h1 | h1
    · rw [Prod.mk.injEq] at h1
      simp [lookupD, h1.1.symm, h1.2]
    · by_cases hp : pk = k
      · exact absurd (hp ▸ List.mem_map_of_mem Prod.fst h1) hn.1
      · simp only [lookupD, hp, if_false]
        exact ih hn.2 h1

theorem setKey_of_lookupD_eq {α : Type} {l : List (String × α)} {k : String} {v : α}
    (h : lookupD l k = some v) : setKey l k v = l := by
  induction l with
  | nil => simp [lookupD] at h
  | cons p t ih =>
    rcases p with ⟨pk, pv⟩
    by_cases hp : pk = k
    · subst hp
      simp [lookupD] at h
      simp [setKey, h]
    · simp [lookupD, hp] at h
      simp [setKey, hp, ih h]

theorem mem_setKey {α : Type} {l : List (String × α)} {k : String} {v : α}
    {q : String × α} (h : q ∈ setKey l k v) : q ∈ l ∨ q = (k, v) := by
  induction l with
  | nil => simp [setKey] at h; right; exact h
  | cons p t ih =>
    by_cases hp : p.1 = k
    · simp only [setKey, hp, if_pos rfl] at h
      rcases List.mem_cons.mp h with h1 | h1
      · right; exact h1
      · left; exact List.mem_cons_of_mem _ h1
    · simp only [setKey, hp, if_false] at h
      rcases List.mem_cons.mp h with h1 | h1
      · left; exact h1 ▸ List.mem_cons_self _ _
      · rcases ih h1 with h2 | h2
        · left; exact List.mem_cons_of_mem _ h2
        · right; exact h2

theorem delKey_sublist {α : Type} (l : List (String × α)) (k : String) :
    (delKey l k).Sublist l := by
  induction l with
  | nil => simp [delKey]
  | cons p t ih =>
    by_cases hp : p.1 = k
    · simp only [delKey, hp, if_pos rfl]
      exact ih.cons p
    · simp only [delKey, hp, if_false]
      exact ih.cons₂ p

theorem keysD_nodup_setKey {α : Type} {l : List (String × α)} (k : String) (v : α)
    (hn : (keysD l).Nodup) : (keysD (setKey l k v)).Nodup := by
  induction l with
  | nil => simp [setKey, keysD]
  | cons p t ih =>
    simp only [keysD, List.map_cons, List.nodup_cons] at hn
    by_cases hp : p.1 = k
    · simp only [setKey, if_pos hp, keysD, List.map_cons, List.nodup_cons]
      exact ⟨hp ▸ hn.1, hn.2⟩
    · simp only [setKey, if_neg hp, keysD, List.map_cons, List.nodup_cons]
      refine ⟨?_, ih hn.2⟩
      intro hmem
      rcases List.mem_map.mp hmem with ⟨q, hq, hq1⟩
      rcases mem_setKey hq with hq' | hq'
      · exact hn.1 (hq1 ▸ List.mem_map_of_mem Prod.fst hq')
      · subst hq'
        exact hp hq1.symm

theorem keysD_nodup_delKey {α : Type} {l : List (String × α)} (k : String)
    (hn : (keysD l).Nodup) : (keysD (delKey l k)).Nodup :=
  ((delKey_sublist l k).map Prod.fst).nodup hn

/-!  Lemmas about `putAll` (the one-level merge loop) and `dictPairs`. -/

theorem putAll_cons {α : Type} (m : List (String × α)) (p : String × α)
    (t : List (String × α)) : putAll m (p :: t) = putAll (setKey m p.1 p.2) t := rfl

theorem lookupD_putAll_not_mem {α : Type} {o : List (String × α)} {k : String}
    (h : k ∉ keysD o) : ∀ m, lookupD (putAll m o) k = lookupD m k := by
  induction o with
  | nil => intro m; rfl
  | cons p t ih =>
    intro m
    simp only [keysD, List.map_cons, List.mem_cons] at h
    rw [putAll_cons, ih (fun hm => h (Or.inr hm)),
      lookupD_setKey_ne _ (fun hm => h (Or.inl hm))]

theorem lookupD_putAll_mem {α : Type} {o : List (String × α)} {k : String} {v : α}
    (hn : (keysD o).Nodup) (h : (k, v) ∈ o) : ∀ m, lookupD (putAll m o) k = some v := by
  induction o with
  | nil => cases h
  | cons p t ih =>
    intro m
    simp only [keysD, List.map_cons, List.nodup_cons] at hn
    rcases List.mem_cons.mp h with h1 | h1
    · have hk : p.1 = k := by rw [← h1]
      have hv : p.2 = v := by rw [← h1]
      rw [putAll_cons, lookupD_putAll_not_mem (hk ▸ hn.1), hk, hv, lookupD_setKey_self]
    · exact ih hn.2 h1 _

theorem putAll_of_lookupD {α : Type} {o m : List (String × α)}
    (h : ∀ p ∈ o, lookupD m p.1 = some p.2) : putAll m o = m := by
  induction o with
  | nil => rfl
  | cons p t ih =>
    rw [putAll_cons, setKey_of_lookupD_eq (h p (List.mem_cons_self p t))]
    exact ih (fun q hq => h q (List.mem_cons_of_mem p hq))

theorem putAll_idem {α : Type} {o : List (String × α)} (hn : (keysD o).Nodup)
    (m : List (String × α)) : putAll (putAll m o) o = putAll m o :=
  putAll_of_lookupD (fun p hp => lookupD_putAll_mem hn (by rw [Prod.mk.eta]; exact hp) m)

theorem putAll_self {α : Type} {o : List (String × α)} (hn : (keysD o).Nodup) :
    putAll o o = o :=
  putAll_of_lookupD (fun p hp => mem_lookupD_of_nodup hn (by rw [Prod.mk.eta]; exact hp))

theorem keysD_nodup_putAll {α : Type} {m : List (String × α)} (o : List (String × α))
    (hn : (keysD m).Nodup) : (keysD (putAll m o)).Nodup := by
  induction o generalizing m with
  | nil => exact hn
  | cons p t ih => exact ih (keysD_nodup_setKey p.1 p.2 hn)

theorem keysD_nodup_dictPairs {α : Type} (l : List (String × α)) :
    (keysD (dictPairs l)).Nodup :=
  keysD_nodup_putAll l (by simp [keysD])

theorem mem_putAll {α : Type} {o m : List (String × α)} {q : String × α}
    (h : q ∈ putAll m o) : q ∈ m ∨ q ∈ o := by
  induction o generalizing m with
  | nil => exact Or.inl h
  | cons p t ih =>
    rw [putAll_cons] at h
    rcases ih h with h1 | h1
    · rcases mem_setKey h1 with h2 | h2
      · exact Or.inl h2
      · exact Or.inr (List.mem_cons.mpr (Or.inl (by rw [h2, Prod.mk.eta])))
    · exact Or.inr (List.mem_cons_of_mem p h1)

theorem mem_dictPairs {α : Type} {l : List (String × α)} {q : String × α}
    (h : q ∈ dictPairs l) : q ∈ l := by
  rcases mem_putAll h with h1 | h1
  · cases h1
  · exact h1

/-- In `dict(pairs)` the last binding for a key wins: lookup in the built
dict is lookup in the reversed pair list. -/
theorem lookupD_putAll_eq_reverse {α : Type} (l : List (String × α)) :
    ∀ (m : List (String × α)) (k : String),
      lookupD (putAll m l) k = (lookupD l.reverse k).orElse (fun _ => lookupD m k) := by
  induction l with
  | nil => intro m k; rfl
  | cons p t ih =>
    intro m k
    rw [putAll_cons, ih]
    have happ : ∀ (a b : List (String × α)) (k : String),
        lookupD (a ++ b) k = (lookupD a k).orElse (fun _ => lookupD b k) := by
      intro a
      induction a with
      | nil => intro b k; rfl
      | cons q s iha =>
        intro b k
        by_cases hq : q.1 = k
        · simp [lookupD, hq, Option.orElse]
        · simp only [List.cons_append, lookupD, if_neg hq]
          exact iha b k
    rw [List.reverse_cons, happ]
    by_cases hmem : k ∈ keysD t.reverse
    · rcases Option.ne_none_iff_exists'.mp
        (fun hnone => (lookupD_eq_none_iff.mp hnone) hmem) with ⟨v, hv⟩
      simp [hv, Option.orElse]
    · have hnone : lookupD t.reverse k = none :=
        lookupD_eq_none_iff.mpr hmem
      simp only [hnone, Option.orElse]
      by_cases hp : p.1 = k
      · simp [lookupD, hp, lookupD_setKey_self, Option.orElse]
      · simp [lookupD, hp, lookupD_setKey_ne _ (fun hh : k = p.1 => hp hh.symm), Option.orElse]

/-- With unique keys, lookup in the reversed list is plain lookup. -/
theorem lookupD_reverse_of_nodup {α : Type} {l : List (String × α)}
    (hn : (keysD l).Nodup) (k : String) : lookupD l.reverse k = lookupD l k := by
  by_cases hmem : k ∈ keysD l
  · rcases Option.ne_none_iff_exists'.mp
      (fun hnone => (lookupD_eq_none_iff.mp hnone) hmem) with ⟨v, hv⟩
    have hvmem : (k, v) ∈ l := lookupD_mem hv
    have hrev : (k, v) ∈ l.reverse := List.mem_reverse.mpr hvmem
    have hnrev : (keysD l.reverse).Nodup := by
      have : keysD l.reverse = (keysD l).reverse := by
        simp [keysD, List.map_reverse]
      rw [this]
      exact List.nodup_reverse.mpr hn
    rw [hv, mem_lookupD_of_nodup hnrev hrev]
  · rw [lookupD_eq_none_iff.mpr hmem, lookupD_eq_none_iff.mpr
      (fun hc => hmem (by
        have : keysD l.reverse = (keysD l).reverse := by
          simp [keysD, List.map_reverse]
        exact List.mem_reverse.mp (this ▸ hc)))]

/-!  Case equations for one override step of `_update_dse_yaml`. -/

theorem applyOption_delete (d : Doc) (k : String) :
    applyOption d (k, none) = .ok (delKey d k) := rfl

theorem applyOption_insert {d : Doc} {k : String} (v : Val)
    (h : lookupD d k = none) : applyOption d (k, some v) = .ok (setKey d k v) := by
  simp [applyOption, h]

theorem applyOption_replace {d : Doc} {k : String} {c : Val} (v : Val)
    (h : lookupD d k = some c) (hc : isMap c = false) :
    applyOption d (k, some v) = .ok (setKey d k v) := by
  cases c with
  | map m => simp [isMap] at hc
  | str s => simp [applyOption, h]
  | int n => simp [applyOption, h]

theorem applyOption_merge {d : Doc} {k : String} {m : List (String × Val)}
    (o : List (String × Val)) (h : lookupD d k = some (Val.map m)) :
    applyOption d (k, some (Val.map o)) = .ok (setKey d k (Val.map (putAll m o))) := by
  simp [applyOption, h]

theorem applyOption_empty_str {d : Doc} {k : String} {m : List (String × Val)}
    (h : lookupD d k = some (Val.map m)) :
    applyOption d (k, some (Val.str "")) = .ok d := by
  simp [applyOption, h]

theorem applyOption_str_err {d : Doc} {k : String} {m : List (String × Val)} {s : String}
    (h : lookupD d k = some (Val.map m)) (hs : s ≠ "") :
    applyOption d (k, some (Val.str s)) = .error () := by
  simp [applyOption, h, hs]

theorem applyOption_int_err {d : Doc} {k : String} {m : List (String × Val)} (n : Int)
    (h : lookupD d k = some (Val.map m)) :
    applyOption d (k, some (Val.int n)) = .error () := by
  simp [applyOption, h]

theorem keyResult_delete (cur : Option Val) : keyResult cur none = .ok none := rfl

theorem keyResult_insert (v : Val) : keyResult none (some v) = .ok (some v) := rfl

theorem keyResult_replace {c : Val} (v : Val) (hc : isMap c = false) :
    keyResult (some c) (some v) = .ok (some v) := by
  cases c with
  | map m => simp [isMap] at hc
  | str s => rfl
  | int n => rfl

theorem keyResult_merge (m o : List (String × Val)) :
    keyResult (some (Val.map m)) (some (Val.map o)) = .ok (some (Val.map (putAll m o))) := rfl

theorem keyResult_empty_str (m : List (String × Val)) :
    keyResult (some (Val.map m)) (some (Val.str "")) = .ok (some (Val.map m)) := by
  simp [keyResult]

theorem keyResult_str_err (m : List (String × Val)) {s : String} (hs : s ≠ "") :
    keyResult (some (Val.map m)) (some (Val.str s)) = .error () := by
  simp [keyResult, hs]

theorem keyResult_int_err (m : List (String × Val)) (n : Int) :
    keyResult (some (Val.map m)) (some (Val.int n)) = .error () := rfl

/-!  Characterisation of the override loop of `_update_dse_yaml`. -/

theorem applyOption_lookup_ne {d d' : Doc} {p : String × Option Val} {j : String}
    (hj : j ≠ p.1) (h : applyOption d p = .ok d') : lookupD d' j = lookupD d j := by
  rcases p with ⟨k, ov⟩
  simp only at hj
  cases ov with
  | none =>
    rw [applyOption_delete] at h
    injection h with h
    rw [← h]
    exact lookupD_delKey_ne hj
  | some v =>
    rcases hcur : lookupD d k with _ | c
    · rw [applyOption_insert v hcur] at h
      injection h with h
      rw [← h]
      exact lookupD_setKey_ne _ hj
    · cases c with
      | map m =>
        cases v with
        | map o =>
          rw [applyOption_merge o hcur] at h
          injection h with h
          rw [← h]
          exact lookupD_setKey_ne _ hj
        | str s =>
          by_cases hs : s = ""
          · subst hs
            rw [applyOption_empty_str hcur] at h
            injection h with h
            rw [← h]
          · rw [applyOption_str_err hcur hs] at h
            cases h
        | int n =>
          rw [applyOption_int_err n hcur] at h
          cases h
      | str s =>
        rw [applyOption_replace v hcur rfl] at h
        injection h with h
        rw [← h]
        exact lookupD_setKey_ne _ hj
      | int n =>
        rw [applyOption_replace v hcur rfl] at h
        injection h with h
        rw [← h]
        exact lookupD_setKey_ne _ hj

theorem applyOption_lookup_self {d d' : Doc} {p : String × Option Val}
    (h : applyOption d p = .ok d') : keyResult (lookupD d p.1) p.2 = .ok (lookupD d' p.1) := by
  rcases p with ⟨k, ov⟩
  dsimp only
  cases ov with
  | none =>
    rw [applyOption_delete] at h
    injection h with h
    rw [← h, keyResult_delete, lookupD_delKey_self]
  | some v =>
    rcases hcur : lookupD d k with _ | c
    · rw [applyOption_insert v hcur] at h
      injection h with h
      rw [← h, keyResult_insert, lookupD_setKey_self]
    · cases c with
      | map m =>
        cases v with
        | map o =>
          rw [applyOption_merge o hcur] at h
          injection h with h
          rw [← h, keyResult_merge, lookupD_setKey_self]
        | str s =>
          by_cases hs : s = ""
          · subst hs
            rw [applyOption_empty_str hcur] at h
            injection h with h
            rw [← h, hcur, keyResult_empty_str]
          · rw [applyOption_str_err hcur hs] at h
            cases h
        | int n =>
          rw [applyOption_int_err n hcur] at h
          cases h
      | str s =>
        rw [applyOption_replace v hcur rfl] at h
        injection h with h
        rw [← h, @keyResult_replace (Val.str s) v rfl, lookupD_setKey_self]
      | int n =>
        rw [applyOption_replace v hcur rfl] at h
        injection h with h
        rw [← h, @keyResult_replace (Val.int n) v rfl, lookupD_setKey_self]

theorem applyOption_ok_of_keyResult {d : Doc} {p : String × Option Val} {r : Option Val}
    (h : keyResult (lookupD d p.1) p.2 = .ok r) : ∃ d', applyOption d p = .ok d' := by
  rcases p with ⟨k, ov⟩
  cases ov with
  | none => exact ⟨delKey d k, applyOption_delete d k⟩
  | some v =>
    rcases hcur : lookupD d k with _ | c
    · exact ⟨setKey d k v, applyOption_insert v hcur⟩
    · cases c with
      | map m =>
        cases v with
        | map o => exact ⟨setKey d k (Val.map (putAll m o)), applyOption_merge o hcur⟩
        | str s =>
          by_cases hs : s = ""
          · subst hs
            exact ⟨d, applyOption_empty_str hcur⟩
          · rw [hcur] at h
            rw [keyResult_str_err m hs] at h
            cases h
        | int n =>
          rw [hcur, keyResult_int_err m n] at h
          cases h
      | str s => exact ⟨setKey d k v, applyOption_replace v hcur rfl⟩
      | int n => exact ⟨setKey d k v, applyOption_replace v hcur rfl⟩

theorem applyOption_nodup {d d' : Doc} {p : String × Option Val}
    (hn : (keysD d).Nodup) (h : applyOption d p = .ok d') : (keysD d').Nodup := by
  rcases p with ⟨k, ov⟩
  cases ov with
  | none =>
    rw [applyOption_delete] at h
    injection h with h
    rw [← h]
    exact keysD_nodup_delKey k hn
  | some v =>
    rcases hcur : lookupD d k with _ | c
    · rw [applyOption_insert v hcur] at h
      injection h with h
      rw [← h]
      exact keysD_nodup_setKey k v hn
    · cases c with
      | map m =>
        cases v with
        | map o =>
          rw [applyOption_merge o hcur] at h
          injection h with h
          rw [← h]
          exact keysD_nodup_setKey _ _ hn
        | str s =>
          by_cases hs : s = ""
          · subst hs
            rw [applyOption_empty_str hcur] at h
            injection h with h
            rw [← h]
            exact hn
          · rw [applyOption_str_err hcur hs] at h
            cases h
        | int n =>
          rw [applyOption_int_err n hcur] at h
          cases h
      | str s =>
        rw [applyOption_replace v hcur rfl] at h
        injection h with h
        rw [← h]
        exact keysD_nodup_setKey _ _ hn
      | int n =>
        rw [applyOption_replace v hcur rfl] at h
        injection h with h
        rw [← h]
        exact keysD_nodup_setKey _ _ hn

theorem applyOptions_lookup_not_mem {L : List (String × Option Val)} {k : String}
    (hk : k ∉ keysD L) : ∀ {d d' : Doc}, applyOptions d L = .ok d' →
      lookupD d' k = lookupD d k := by
  induction L with
  | nil =>
    intro d d' h
    injection h with h
    rw [h]
  | cons p t ih =>
    intro d d' h
    simp only [keysD, List.map_cons, List.mem_cons] at hk
    cases hstep : applyOption d p with
    | error e =>
      simp only [applyOptions, hstep] at h
      exact Except.noConfusion h
    | ok d1 =>
      simp only [applyOptions, hstep] at h
      rw [ih (fun hm => hk (Or.inr hm)) h,
        applyOption_lookup_ne (fun hm => hk (Or.inl hm)) hstep]

theorem applyOptions_lookup_mem {L : List (String × Option Val)} {k : String}
    {ov : Option Val} (hn : (keysD L).Nodup) (hk : lookupD L k = some ov) :
    ∀ {d d' : Doc}, applyOptions d L = .ok d' →
      keyResult (lookupD d k) ov = .ok (lookupD d' k) := by
  induction L with
  | nil => cases hk
  | cons p t ih =>
    intro d d' h
    simp only [keysD, List.map_cons, List.nodup_cons] at hn
    cases hstep : applyOption d p with
    | error e =>
      simp only [applyOptions, hstep] at h
      exact Except.noConfusion h
    | ok d1 =>
      simp only [applyOptions, hstep] at h
      by_cases hp : p.1 = k
      · simp only [lookupD, if_pos hp] at hk
        injection hk with hk
        have hknot : k ∉ keysD t := hp ▸ hn.1
        rw [applyOptions_lookup_not_mem hknot h]
        have hself := applyOption_lookup_self hstep
        rw [hp, hk] at hself
        exact hself
      · simp only [lookupD, if_neg hp] at hk
        have hrec := ih hn.2 hk h
        rw [applyOption_lookup_ne (fun hm : k = p.1 => hp hm.symm) hstep] at hrec
        exact hrec

theorem applyOptions_ok_of_keyResult {L : List (String × Option Val)}
    (hn : (keysD L).Nodup) :
    ∀ {d : Doc}, (∀ p ∈ L, ∃ r, keyResult (lookupD d p.1) p.2 = .ok r) →
      ∃ d', applyOptions d L = .ok d' := by
  induction L with
  | nil => exact fun {d} _ => ⟨d, rfl⟩
  | cons p t ih =>
    intro d hall
    simp only [keysD, List.map_cons, List.nodup_cons] at hn
    rcases hall p (List.mem_cons_self p t) with ⟨r, hr⟩
    rcases applyOption_ok_of_keyResult hr with ⟨d1, hd1⟩
    have hrest : ∀ q ∈ t, ∃ r, keyResult (lookupD d1 q.1) q.2 = .ok r := by
      intro q hq
      have hne : q.1 ≠ p.1 := by
        intro hc
        exact hn.1 (hc ▸ List.mem_map_of_mem Prod.fst hq)
      rw [applyOption_lookup_ne hne hd1]
      exact hall q (List.mem_cons_of_mem p hq)
    rcases ih hn.2 hrest with ⟨d', hd'⟩
    refine ⟨d', ?_⟩
    simp only [applyOptions, hd1]
    exact hd'

theorem applyOptions_nodup {L : List (String × Option Val)} :
    ∀ {d d' : Doc}, (keysD d).Nodup → applyOptions d L = .ok d' → (keysD d').Nodup := by
  induction L with
  | nil =>
    intro d d' hn h
    injection h with h
    rw [← h]
    exact hn
  | cons p t ih =>
    intro d d' hn h
    cases hstep : applyOption d p with
    | error e =>
      simp only [applyOptions, hstep] at h
      exact Except.noConfusion h
    | ok d1 =>
      simp only [applyOptions, hstep] at h
      exact ih (applyOption_nodup hn hstep) h

/-- Applying the same override to the binding it already produced changes
nothing: the value-level idempotence of one override step.  Needs the
override's mapping (if any) to have unique keys, which every Python dict
does. -/
theorem keyResult_idem {cur r : Option Val} {ov : Option Val}
    (hwf : wfOverrideB ov = true) (h : keyResult cur ov = .ok r) :
    keyResult r ov = .ok r := by
  cases ov with
  | none =>
    rw [keyResult_delete] at h
    injection h with h
    rw [← h, keyResult_delete]
  | some v =>
    have hno : ∀ o, v = Val.map o → (keysD o).Nodup := by
      intro o ho
      rw [ho] at hwf
      simpa [wfOverrideB] using hwf
    rcases cur with _ | c
    · rw [keyResult_insert] at h
      injection h with h
      subst h
      cases v with
      | map o => rw [keyResult_merge, putAll_self (hno o rfl)]
      | str s =>
        by_cases hs : s = ""
        · subst hs
          rfl
        · exact keyResult_replace _ (by rfl)
      | int n => exact keyResult_replace _ (by rfl)
    · cases c with
      | map m =>
        cases v with
        | map o =>
          rw [keyResult_merge] at h
          injection h with h
          subst h
          rw [keyResult_merge, putAll_idem (hno o rfl)]
        | str s =>
          by_cases hs : s = ""
          · subst hs
            rw [keyResult_empty_str] at h
            injection h with h
            subst h
            rw [keyResult_empty_str]
          · rw [keyResult_str_err m hs] at h
            cases h
        | int n =>
          rw [keyResult_int_err] at h
          cases h
      | str s =>
        rw [@keyResult_replace (Val.str s) v rfl] at h
        injection h with h
        subst h
        cases v with
        | map o => rw [keyResult_merge, putAll_self (hno o rfl)]
        | str s2 =>
          by_cases hs : s2 = ""
          · subst hs
            rfl
          · exact keyResult_replace _ (by rfl)
        | int n => exact keyResult_replace _ (by rfl)
      | int n =>
        rw [@keyResult_replace (Val.int n) v rfl] at h
        injection h with h
        subst h
        cases v with
        | map o => rw [keyResult_merge, putAll_self (hno o rfl)]
        | str s2 =>
          by_cases hs : s2 = ""
          · subst hs
            rfl
          · exact keyResult_replace _ (by rfl)
        | int n2 => exact keyResult_replace _ (by rfl)

/-!  Extensionality up to on-disk form: two documents with unique keys and
the same bindings serialise identically (`yaml.safe_dump` sorts keys). -/

instance : IsAntisymm (String × Val) (fun a b => a.1 < b.1) :=
  ⟨fun a b h h' => absurd (lt_trans h h') (lt_irrefl _)⟩

instance : IsTotal (String × Val) (fun a b => a.1 ≤ b.1) :=
  ⟨fun a b => le_total a.1 b.1⟩

instance : IsTrans (String × Val) (fun a b => a.1 ≤ b.1) :=
  ⟨fun a b c h h' => le_trans h h'⟩

theorem sorted_strict_of_nodup {l : Doc} (hn : (keysD l).Nodup)
    (hs : List.Sorted (fun a b : String × Val => a.1 ≤ b.1) l) :
    List.Sorted (fun a b : String × Val => a.1 < b.1) l := by
  have hne : List.Pairwise (fun a b : String × Val => a.1 ≠ b.1) l :=
    List.pairwise_map.mp hn
  exact (hs.and hne).imp (fun h => lt_of_le_of_ne h.1 h.2)

theorem canon_ext {d₁ d₂ : Doc} (h₁ : (keysD d₁).Nodup) (h₂ : (keysD d₂).Nodup)
    (h : ∀ k, lookupD d₁ k = lookupD d₂ k) : canon d₁ = canon d₂ := by
  have hmem : ∀ q : String × Val, q ∈ d₁ ↔ q ∈ d₂ := by
    intro q
    constructor
    · intro hq
      have hl := mem_lookupD_of_nodup h₁ (show (q.1, q.2) ∈ d₁ by rw [Prod.mk.eta]; exact hq)
      rw [h q.1] at hl
      have hm := lookupD_mem hl
      rw [Prod.mk.eta] at hm
      exact hm
    · intro hq
      have hl := mem_lookupD_of_nodup h₂ (show (q.1, q.2) ∈ d₂ by rw [Prod.mk.eta]; exact hq)
      rw [← h q.1] at hl
      have hm := lookupD_mem hl
      rw [Prod.mk.eta] at hm
      exact hm
  have hd₁ : d₁.Nodup := List.Nodup.of_map Prod.fst h₁
  have hd₂ : d₂.Nodup := List.Nodup.of_map Prod.fst h₂
  have hperm : d₁.Perm d₂ := (List.perm_ext_iff_of_nodup hd₁ hd₂).mpr hmem
  have hp : (canon d₁).Perm (canon d₂) :=
    ((List.perm_insertionSort _ d₁).trans hperm).trans (List.perm_insertionSort _ d₂).symm
  have hk₁ : (keysD (canon d₁)).Nodup :=
    (((List.perm_insertionSort (fun a b : String × Val => a.1 ≤ b.1) d₁).map
      Prod.fst).nodup_iff).mpr h₁
  have hk₂ : (keysD (canon d₂)).Nodup :=
    (((List.perm_insertionSort (fun a b : String × Val => a.1 ≤ b.1) d₂).map
      Prod.fst).nodup_iff).mpr h₂
  exact List.eq_of_perm_of_sorted hp
    (sorted_strict_of_nodup hk₁ (List.sorted_insertionSort _ d₁))
    (sorted_strict_of_nodup hk₂ (List.sorted_insertionSort _ d₂))

/-!  XML property-list lemmas. -/

theorem containsName_of_split (pre suf : List XmlProperty) (q : XmlProperty) {nm : String}
    (hq : q.name = nm) : containsName (pre ++ q :: suf) nm = true := by
  simp only [containsName, List.any_eq_true]
  exact ⟨q, by simp, by simp [hq]⟩

theorem containsName_eq_false {doc : List XmlProperty} {nm : String}
    (h : ∀ p ∈ doc, p.name ≠ nm) : containsName doc nm = false := by
  simp only [containsName, List.any_eq_false]
  intro p hp
  simp [h p hp]

theorem removeFirstProperty_split {pre : List XmlProperty} (suf : List XmlProperty)
    {q : XmlProperty} {nm : String} (hpre : ∀ p ∈ pre, p.name ≠ nm) (hq : q.name = nm) :
    removeFirstProperty (pre ++ q :: suf) nm = pre ++ suf := by
  induction pre with
  | nil => simp [removeFirstProperty, hq]
  | cons p t ih =>
    have hp : p.name ≠ nm := hpre p (List.mem_cons_self p t)
    simp only [List.cons_append, removeFirstProperty, if_neg hp]
    congr 1
    exact ih (fun r hr => hpre r (List.mem_cons_of_mem p hr))

theorem replaceFirstValue_split {pre : List XmlProperty} (suf : List XmlProperty)
    {q : XmlProperty} {nm : String} (v : Option String)
    (hpre : ∀ p ∈ pre, p.name ≠ nm) (hq : q.name = nm) :
    replaceFirstValue (pre ++ q :: suf) nm v = pre ++ { name := q.name, value := v } :: suf := by
  induction pre with
  | nil => simp [replaceFirstValue, hq]
  | cons p t ih =>
    have hp : p.name ≠ nm := hpre p (List.mem_cons_self p t)
    simp only [List.cons_append, replaceFirstValue, if_neg hp]
    congr 1
    exact ih (fun r hr => hpre r (List.mem_cons_of_mem p hr))

/-!  Ordering of effects in a trace split as node part followed by agent part. -/

theorem signal_before_agent_of_split {l₁ l₂ : List ExtCall}
    (h₁ : ∀ e ∈ l₁, agentOp e = false) (h₂ : ∀ e ∈ l₂, e ≠ ExtCall.signalStopNode) :
    ∀ i j : Fin (l₁ ++ l₂).length, (l₁ ++ l₂).get i = ExtCall.signalStopNode →
      agentOp ((l₁ ++ l₂).get j) = true → i.val < j.val := by
  intro i j hi hj
  have hilt : i.val < l₁.length := by
    by_contra hge
    push_neg at hge
    have hb : i.val - l₁.length < l₂.length := by
      have hLt := i.isLt
      simp only [List.length_append] at hLt
      omega
    have hgl : (l₁ ++ l₂).get i = l₂.get ⟨i.val - l₁.length, hb⟩ := by
      rw [List.get_eq_getElem, List.get_eq_getElem]
      exact List.getElem_append_right hge
    have hmem : ExtCall.signalStopNode ∈ l₂ := by
      rw [← hi, hgl]
      exact List.get_mem _ _ _
    exact h₂ _ hmem rfl
  have hjge : l₁.length ≤ j.val := by
    by_contra hlt
    push_neg at hlt
    have hgl : (l₁ ++ l₂).get j = l₁.get ⟨j.val, hlt⟩ := by
      rw [List.get_eq_getElem, List.get_eq_getElem]
      exact List.getElem_append_left hlt
    rw [hgl, h₁ _ (List.get_mem _ _ _)] at hj
    cases hj
  omega

theorem lookupD_append {α : Type} (a b : List (String × α)) (k : String) :
    lookupD (a ++ b) k = (lookupD a k).orElse (fun _ => lookupD b k) := by
  induction a with
  | nil => rfl
  | cons q s iha =>
    by_cases hq : q.1 = k
    · simp [lookupD, hq, Option.orElse]
    · simp only [List.cons_append, lookupD, if_neg hq]
      exact iha

theorem debug_env_lookup_ne {ctx : StartCtx} {dbg : Bool} {e1 : List (String × String)}
    {key : String} (hkey : key ≠ "JVM_EXTRA_OPTS") (h : DseNode.debug_env ctx dbg = .ok e1) :
    lookupD e1 key = lookupD ctx.baseEnv key := by
  cases dbg with
  | false =>
    simp only [DseNode.debug_env, if_neg (Bool.false_ne_true)] at h
    injection h with h
    rw [← h]
  | true =>
    simp only [DseNode.debug_env, if_pos rfl] at h
    cases hd : lastCharDigit ctx.thrift_ip with
    | none =>
      rw [hd] at h
      cases h
    | some dgt =>
      rw [hd] at h
      injection h with h
      rw [← h]
      exact lookupD_setKey_ne _ hkey

/-!  The claims. -/

/-- Claim C1, counterexample.  The claim says that when both the existing
value and the override value are mappings they are merged *recursively*
key-by-key, and that in every other case the override *replaces* the
existing value wholesale.  Both parts fail on `_update_dse_yaml`:

  * document `{a: {b: {c: 1, d: 2}}}` with override `{a: {b: {c: 3}}}`:
    a recursive merge keeps path `a.b.d = 2`, but the code merges only one
    level deep, replacing the whole sub-mapping at `a.b`, so `a.b.d` is
    gone (second and third conjuncts: the key path existed before and the
    override never touched it, yet it is absent from the result);
  * document `{a: {x: 1}}` with override `{a: 5}` (existing value a
    mapping, override not a mapping): the claim predicts wholesale
    replacement, but the code raises a `TypeError` (final conjunct). -/
theorem claim_C1_counterexample :
    update_dse_yaml [("a", Val.map [("b", Val.map [("c", Val.int 1), ("d", Val.int 2)])])]
        "KD" [] [("a", some (Val.map [("b", Val.map [("c", Val.int 3)])]))] =
      Except.ok [("a", Val.map [("b", Val.map [("c", Val.int 3)])]),
        ("system_key_directory", Val.str "KD")] ∧
    pathLookup [("a", Val.map [("b", Val.map [("c", Val.int 1), ("d", Val.int 2)])])]
      ["a", "b", "d"] = some (Val.int 2) ∧
    pathLookup [("a", Val.map [("b", Val.map [("c", Val.int 3)])]),
      ("system_key_directory", Val.str "KD")] ["a", "b", "d"] = none ∧
    update_dse_yaml [("a", Val.map [("x", Val.int 1)])] "KD" [] [("a", some (Val.int 5))] =
      Except.error () :=
  ⟨rfl, rfl, rfl, rfl⟩

/-- Claim C1 (corrected): for every document and override applied by the
merge loop of `_update_dse_yaml`: a deletion-marker override removes the
key, absence being a no-op, and leaves every other key unchanged; when the
existing value is a mapping and the override value is a mapping, the
override's entries are written into the existing mapping one level deep —
each overridden sub-key takes the override's sub-value wholesale and every
sub-key not mentioned by the override keeps its old value; a missing key
is inserted with the override value; a key whose existing value is not a
mapping is replaced wholesale; when the existing value is a mapping and
the override value is the empty string the document is unchanged; and when
the existing value is a mapping and the override value is any other
non-mapping, the update raises a `TypeError` instead of replacing. -/
theorem claim_C1_amended : ∀ (d : Doc) (k : String),
    (applyOption d (k, none) = .ok (delKey d k) ∧ lookupD (delKey d k) k = none ∧
      ∀ j, j ≠ k → lookupD (delKey d k) j = lookupD d j) ∧
    (∀ m o, lookupD d k = some (Val.map m) →
      applyOption d (k, some (Val.map o)) = .ok (setKey d k (Val.map (putAll m o))) ∧
      ((keysD o).Nodup → ∀ x u, (x, u) ∈ o → lookupD (putAll m o) x = some u) ∧
      (∀ x, x ∉ keysD o → lookupD (putAll m o) x = lookupD m x)) ∧
    (∀ v, lookupD d k = none →
      applyOption d (k, some v) = .ok (setKey d k v) ∧ lookupD (setKey d k v) k = some v) ∧
    (∀ v c, lookupD d k = some c → isMap c = false →
      applyOption d (k, some v) = .ok (setKey d k v) ∧ lookupD (setKey d k v) k = some v) ∧
    (∀ m, lookupD d k = some (Val.map m) → applyOption d (k, some (Val.str "")) = .ok d) ∧
    (∀ m, lookupD d k = some (Val.map m) →
      (∀ n, applyOption d (k, some (Val.int n)) = .error ()) ∧
      (∀ s, s ≠ "" → applyOption d (k, some (Val.str s)) = .error ())) := by
  intro d k
  refine ⟨⟨applyOption_delete d k, lookupD_delKey_self d k, fun j hj => lookupD_delKey_ne hj⟩,
    fun m o hm => ⟨applyOption_merge o hm,
      fun hno x u hx => lookupD_putAll_mem hno hx m,
      fun x hx => lookupD_putAll_not_mem hx m⟩,
    fun v hv => ⟨applyOption_insert v hv, lookupD_setKey_self d k v⟩,
    fun v c hc hcm => ⟨applyOption_replace v hc hcm, lookupD_setKey_self d k v⟩,
    fun m hm => applyOption_empty_str hm,
    fun m hm => ⟨fun n => applyOption_int_err n hm, fun s hs => applyOption_str_err hm hs⟩⟩

/-- Witness for C1: the corrected behaviour at concrete inputs, one per
case of the amended claim, each obtained from `claim_C1_amended`. -/
theorem claim_C1_witness :
    applyOption [("a", Val.map [("x", Val.int 1)])] ("a", some (Val.map [("y", Val.int 3)]))
      = Except.ok (setKey [("a", Val.map [("x", Val.int 1)])] "a"
          (Val.map (putAll [("x", Val.int 1)] [("y", Val.int 3)]))) ∧
    lookupD (putAll [("x", Val.int 1)] [("y", Val.int 3)]) "y" = some (Val.int 3) ∧
    lookupD (putAll [("x", Val.int 1)] [("y", Val.int 3)]) "x"
      = lookupD [("x", Val.int 1)] "x" ∧
    applyOption [("a", Val.map [("x", Val.int 1)])] ("b", some (Val.int 4))
      = Except.ok (setKey [("a", Val.map [("x", Val.int 1)])] "b" (Val.int 4)) ∧
    applyOption [("s", Val.str "old")] ("s", some (Val.int 4))
      = Except.ok (setKey [("s", Val.str "old")] "s" (Val.int 4)) ∧
    applyOption [("a", Val.map [("x", Val.int 1)])] ("a", some (Val.str ""))
      = Except.ok [("a", Val.map [("x", Val.int 1)])] ∧
    applyOption [("a", Val.map [("x", Val.int 1)])] ("a", some (Val.int 9))
      = Except.error () ∧
    applyOption [("a", Val.map [("x", Val.int 1)])] ("c", none)
      = Except.ok (delKey [("a", Val.map [("x", Val.int 1)])] "c") := by
  have h := claim_C1_amended [("a", Val.map [("x", Val.int 1)])] "a"
  have h2 := claim_C1_amended [("a", Val.map [("x", Val.int 1)])] "b"
  have h3 := claim_C1_amended [("s", Val.str "old")] "s"
  have h4 := claim_C1_amended [("a", Val.map [("x", Val.int 1)])] "c"
  exact ⟨(h.2.1 _ _ rfl).1,
    (h.2.1 _ _ rfl).2.1 (by decide) "y" (Val.int 3) (List.mem_cons_self _ _),
    (h.2.1 _ _ rfl).2.2 "x" (by decide),
    (h2.2.2.1 (Val.int 4) rfl).1,
    (h3.2.2.2.1 (Val.int 4) (Val.str "old") rfl rfl).1,
    h.2.2.2.2.1 _ rfl,
    (h.2.2.2.2.2 _ rfl).1 9,
    h4.1.1⟩

/-- Claim C2 (confirmed): `_update_dse_yaml` layers cluster overrides
first, node overrides second, by building `dict(cluster + node)` — so for
any key bound in the node overrides (unique keys, as in a Python dict),
the layered override dict carries the node-level binding, whatever the
cluster says; and concretely, cluster override `{a: 1}` with node override
`{a: 2}` yields merged value `2` for key `a`. -/
theorem claim_C2 :
    (∀ (cluster node : List (String × Option Val)) (k : String) (v : Option Val),
      (keysD node).Nodup → lookupD node k = some v →
        lookupD (dictPairs (cluster ++ node)) k = some v) ∧
    update_dse_yaml [] "KD" [("a", some (Val.int 1))] [("a", some (Val.int 2))] =
      Except.ok [("system_key_directory", Val.str "KD"), ("a", Val.int 2)] := by
  constructor
  · intro cluster node k v hn hk
    rw [dictPairs, lookupD_putAll_eq_reverse, List.reverse_append, lookupD_append,
      lookupD_reverse_of_nodup hn, hk]
    rfl
  · rfl

/-- Witness for C2: with cluster override `{a: 1}` and node overrides
`{a: 2, b: delete}`, the layered override dict binds `a` to `2`. -/
theorem claim_C2_witness :
    lookupD (dictPairs ([("a", some (Val.int 1))] ++ [("a", some (Val.int 2)), ("b", none)]))
      "a" = some (some (Val.int 2)) :=
  claim_C2.1 [("a", some (Val.int 1))] [("a", some (Val.int 2)), ("b", none)] "a"
    (some (Val.int 2)) (by decide) rfl

/-- Claim C3 (confirmed): applying the same override set twice through
`_update_dse_yaml` yields the same on-disk document content as applying it
once.  The document starts with unique keys (it was parsed from a YAML
mapping) and every override mapping has unique keys (it was a Python
dict); `canon` is the on-disk form (`yaml.safe_dump` sorts mapping keys).
The second application also never raises when the first one succeeded. -/
theorem claim_C3 : ∀ (D : Doc) (skd : String) (cluster node : List (String × Option Val))
    (D₁ : Doc), (keysD D).Nodup →
    (∀ p ∈ cluster ++ node, wfOverrideB p.2 = true) →
    update_dse_yaml D skd cluster node = .ok D₁ →
    update_dse_yaml D₁ skd cluster node ≠ Except.error () ∧
    ∀ D₂, update_dse_yaml D₁ skd cluster node = .ok D₂ → canon D₂ = canon D₁ := by
  intro D skd cluster node D₁ hD hwf h1
  have h1' : applyOptions (setKey D "system_key_directory" (Val.str skd))
      (dictPairs (cluster ++ node)) = .ok D₁ := h1
  have hnL : (keysD (dictPairs (cluster ++ node))).Nodup := keysD_nodup_dictPairs _
  have hwfL : ∀ p ∈ dictPairs (cluster ++ node), wfOverrideB p.2 = true :=
    fun p hp => hwf p (mem_dictPairs hp)
  have hkr : ∀ p ∈ dictPairs (cluster ++ node),
      keyResult (lookupD (setKey D "system_key_directory" (Val.str skd)) p.1) p.2
        = .ok (lookupD D₁ p.1) := by
    intro p hp
    have hkL : lookupD (dictPairs (cluster ++ node)) p.1 = some p.2 :=
      mem_lookupD_of_nodup hnL (by rw [Prod.mk.eta]; exact hp)
    exact applyOptions_lookup_mem hnL hkL h1'
  have hok2 : ∀ p ∈ dictPairs (cluster ++ node),
      ∃ r, keyResult (lookupD (setKey D₁ "system_key_directory" (Val.str skd)) p.1) p.2
        = .ok r := by
    intro p hp
    by_cases hskd : p.1 = "system_key_directory"
    · rw [hskd, lookupD_setKey_self]
      have hthis := hkr p hp
      rw [hskd, lookupD_setKey_self] at hthis
      exact ⟨_, hthis⟩
    · rw [lookupD_setKey_ne _ hskd]
      exact ⟨lookupD D₁ p.1, keyResult_idem (hwfL p hp) (hkr p hp)⟩
  rcases applyOptions_ok_of_keyResult hnL hok2 with ⟨D₂', h2'⟩
  constructor
  · intro hcontra
    have hc' : applyOptions (setKey D₁ "system_key_directory" (Val.str skd))
        (dictPairs (cluster ++ node)) = Except.error () := hcontra
    exact Except.noConfusion (h2'.symm.trans hc')
  · intro D₂ h2
    have h2'' : applyOptions (setKey D₁ "system_key_directory" (Val.str skd))
        (dictPairs (cluster ++ node)) = .ok D₂ := h2
    have hD0 : (keysD (setKey D "system_key_directory" (Val.str skd))).Nodup :=
      keysD_nodup_setKey _ _ hD
    have hD₁ : (keysD D₁).Nodup := applyOptions_nodup hD0 h1'
    have hd1' : (keysD (setKey D₁ "system_key_directory" (Val.str skd))).Nodup :=
      keysD_nodup_setKey _ _ hD₁
    have hD₂ : (keysD D₂).Nodup := applyOptions_nodup hd1' h2''
    refine canon_ext hD₂ hD₁ ?_
    intro k
    cases hkL : lookupD (dictPairs (cluster ++ node)) k with
    | some ov =>
      have hr2 := applyOptions_lookup_mem hnL hkL h2''
      have hr1 := applyOptions_lookup_mem hnL hkL h1'
      by_cases hskd : k = "system_key_directory"
      · rw [hskd, lookupD_setKey_self] at hr1 hr2
        rw [hskd]
        exact Except.ok.inj (hr2.symm.trans hr1)
      · rw [lookupD_setKey_ne _ hskd] at hr2
        have hov : wfOverrideB ov = true := hwfL (k, ov) (lookupD_mem hkL)
        have hidem := keyResult_idem hov hr1
        exact Except.ok.inj (hr2.symm.trans hidem)
    | none =>
      have hk : k ∉ keysD (dictPairs (cluster ++ node)) := lookupD_eq_none_iff.mp hkL
      have hr2 := applyOptions_lookup_not_mem hk h2''
      have hr1 := applyOptions_lookup_not_mem hk h1'
      by_cases hskd : k = "system_key_directory"
      · rw [hskd] at hr1 hr2 ⊢
        rw [lookupD_setKey_self] at hr1 hr2
        rw [hr1, hr2]
      · rw [lookupD_setKey_ne _ hskd] at hr2
        exact hr2

/-- Witness for C3: document `{a: 1}`, cluster override `{b: {x: 2}}`,
node override `{a: delete}`; applying the overrides once gives
`{system_key_directory: KD, b: {x: 2}}` and applying them a second time
gives the same serialised document. -/
theorem claim_C3_witness :
    update_dse_yaml [("a", Val.int 1)] "KD" [("b", some (Val.map [("x", Val.int 2)]))]
      [("a", none)]
      = Except.ok [("system_key_directory", Val.str "KD"), ("b", Val.map [("x", Val.int 2)])] ∧
    canon [("system_key_directory", Val.str "KD"), ("b", Val.map [("x", Val.int 2)])] =
      canon [("system_key_directory", Val.str "KD"), ("b", Val.map [("x", Val.int 2)])] := by
  refine ⟨rfl, ?_⟩
  exact (claim_C3 [("a", Val.int 1)] "KD" [("b", some (Val.map [("x", Val.int 2)]))]
      [("a", none)]
      [("system_key_directory", Val.str "KD"), ("b", Val.map [("x", Val.int 2)])]
      (by decide) (by decide) rfl).2
      [("system_key_directory", Val.str "KD"), ("b", Val.map [("x", Val.int 2)])] rfl

/-- Claim C4 (confirmed): for every XML property-list document and
`(name, value)` override applied by `set_xml_configuration_options`:
if a property whose name equals `name` exists (the part of the document
before it containing no such name) and the value is empty or absent, that
whole property element is removed; if it exists and the value is
non-empty, the text of its value child is replaced in place; if no such
property exists and the value is non-empty, a fresh `(name, value)`
property is appended; and overrides for two absent names are appended in
encounter order.  In each case every other property is untouched and keeps
its original position. -/
theorem claim_C4 :
    (∀ (pre suf : List XmlProperty) (q : XmlProperty) (nm : String) (v : Option String),
      (∀ p ∈ pre, p.name ≠ nm) → q.name = nm → isEmptyValue v = true →
      set_xml_configuration_options (pre ++ q :: suf) [(nm, v)] = pre ++ suf) ∧
    (∀ (pre suf : List XmlProperty) (q : XmlProperty) (nm : String) (v : Option String),
      (∀ p ∈ pre, p.name ≠ nm) → q.name = nm → isEmptyValue v = false →
      set_xml_configuration_options (pre ++ q :: suf) [(nm, v)] =
        pre ++ { name := q.name, value := v } :: suf) ∧
    (∀ (doc : List XmlProperty) (nm : String) (v : Option String),
      (∀ p ∈ doc, p.name ≠ nm) → isEmptyValue v = false →
      set_xml_configuration_options doc [(nm, v)] = doc ++ [{ name := nm, value := v }]) ∧
    (∀ (doc : List XmlProperty) (n₁ n₂ : String) (v₁ v₂ : String),
      (∀ p ∈ doc, p.name ≠ n₁ ∧ p.name ≠ n₂) → n₂ ≠ n₁ → v₁ ≠ "" → v₂ ≠ "" →
      set_xml_configuration_options doc [(n₁, some v₁), (n₂, some v₂)] =
        doc ++ [{ name := n₁, value := some v₁ }, { name := n₂, value := some v₂ }]) := by
  refine ⟨?_, ?_, ?_, ?_⟩
  · intro pre suf q nm v hpre hq hv
    show applyXmlOption (pre ++ q :: suf) nm v = pre ++ suf
    rw [applyXmlOption, if_pos (containsName_of_split pre suf q hq), if_pos hv]
    exact removeFirstProperty_split suf hpre hq
  · intro pre suf q nm v hpre hq hv
    show applyXmlOption (pre ++ q :: suf) nm v = pre ++ { name := q.name, value := v } :: suf
    rw [applyXmlOption, if_pos (containsName_of_split pre suf q hq),
      if_neg (by rw [hv]; exact Bool.false_ne_true)]
    exact replaceFirstValue_split suf v hpre hq
  · intro doc nm v hdoc hv
    show applyXmlOption doc nm v = doc ++ [{ name := nm, value := v }]
    rw [applyXmlOption, if_neg (by rw [containsName_eq_false hdoc]; exact Bool.false_ne_true)]
  · intro doc n₁ n₂ v₁ v₂ h hne hv₁ hv₂
    show applyXmlOption (applyXmlOption doc n₁ (some v₁)) n₂ (some v₂) = _
    have h1 : applyXmlOption doc n₁ (some v₁) = doc ++ [{ name := n₁, value := some v₁ }] := by
      rw [applyXmlOption, if_neg (by
        rw [containsName_eq_false (fun p hp => (h p hp).1)]; exact Bool.false_ne_true)]
    rw [h1, applyXmlOption, if_neg (by
      rw [containsName_eq_false ?hall]; exact Bool.false_ne_true
      case hall =>
        intro p hp
        rcases List.mem_append.mp hp with hp1 | hp1
        · exact (h p hp1).2
        · intro hc
          rcases List.mem_singleton.mp hp1 with rfl
          exact hne (by simpa using hc.symm))]
    rw [List.append_assoc]
    rfl

/-- Witness for C4: on the document `[(a,1), (b,2)]`, overriding `b` with
the empty string removes it; overriding `b` with `9` rewrites it in place;
overriding absent `c` with `3` appends it; and overriding absent `c`, `d`
appends both in order. -/
theorem claim_C4_witness :
    set_xml_configuration_options
        [{ name := "a", value := some "1" }, { name := "b", value := some "2" }]
        [("b", some "")] = [{ name := "a", value := some "1" }] ∧
    set_xml_configuration_options
        [{ name := "a", value := some "1" }, { name := "b", value := some "2" }]
        [("b", some "9")] =
      [{ name := "a", value := some "1" }, { name := "b", value := some "9" }] ∧
    set_xml_configuration_options [{ name := "a", value := some "1" }] [("c", some "3")] =
      [{ name := "a", value := some "1" }, { name := "c", value := some "3" }] ∧
    set_xml_configuration_options [{ name := "a", value := some "1" }]
        [("c", some "3"), ("d", some "4")] =
      [{ name := "a", value := some "1" }, { name := "c", value := some "3" },
        { name := "d", value := some "4" }] := by
  refine ⟨?_, ?_, ?_, ?_⟩
  · exact claim_C4.1 [{ name := "a", value := some "1" }] []
      { name := "b", value := some "2" } "b" (some "") (by decide) rfl rfl
  · exact claim_C4.2.1 [{ name := "a", value := some "1" }] []
      { name := "b", value := some "2" } "b" (some "9") (by decide) rfl rfl
  · exact claim_C4.2.2.1 [{ name := "a", value := some "1" }] "c" (some "3")
      (by decide) rfl
  · exact claim_C4.2.2.2 [{ name := "a", value := some "1" }] "c" "d" "3" "4"
      (by decide) (by decide) (by decide) (by decide)

/-- Claim C5, counterexample.  The claim (with the spec) says `stop` stops
the agent first and only afterwards signals the node's main process.  The
code does the opposite: `DseNode.stop` first runs the base-class stop
(which signals the node process) and only then `_stop_agent`.  On a
running node with OpsCenter enabled and a live agent, the trace starts
with the node signal and the agent operations follow, so no agent
operation precedes the signal. -/
theorem claim_C5_counterexample :
    DseNode.stop true true true true true 42 =
      PyResult.ok [ExtCall.signalStopNode, ExtCall.readFile "datastax-agent.pid",
        ExtCall.kill 42, ExtCall.removeFile "datastax-agent.pid"] true ∧
    ¬ agentStoppedBeforeSignal [ExtCall.signalStopNode,
        ExtCall.readFile "datastax-agent.pid", ExtCall.kill 42,
        ExtCall.removeFile "datastax-agent.pid"] :=
  ⟨rfl, by decide⟩

/-- Claim C5 (corrected): in every execution of `stop` on a node whose
cluster has the monitoring agent enabled, the node's main process is
signaled *first*, and only afterwards is the agent stopped (every agent
operation in the trace comes strictly after every node signal); and
whenever the node was running, the node-stop signal is in the trace —
also when the agent stop path raises afterwards — so the node's
transition to stopped does not depend on the agent-stop outcome. -/
theorem claim_C5_amended : ∀ (running gently dirExists pidExists : Bool) (pid : Int),
    (∀ i j : Fin (DseNode.stop true running gently dirExists pidExists pid).events.length,
      (DseNode.stop true running gently dirExists pidExists pid).events.get i =
        ExtCall.signalStopNode →
      agentOp ((DseNode.stop true running gently dirExists pidExists pid).events.get j) =
        true → i.val < j.val) ∧
    (running = true →
      ExtCall.signalStopNode ∈ (DseNode.stop true running gently dirExists pidExists pid).events) := by
  intro running gently dirExists pidExists pid
  have hsplit : ∃ l₂, (DseNode.stop true running gently dirExists pidExists pid).events
      = (Node.stop running gently).1 ++ l₂ ∧ (∀ e ∈ l₂, e ≠ ExtCall.signalStopNode) := by
    cases dirExists with
    | false =>
      refine ⟨[], ?_, by simp⟩
      simp [DseNode.stop, DseNode.stop_agent, PyResult.events]
    | true =>
      cases pidExists with
      | true =>
        refine ⟨[ExtCall.readFile "datastax-agent.pid", ExtCall.kill pid,
          ExtCall.removeFile "datastax-agent.pid"], ?_, by simp⟩
        simp [DseNode.stop, DseNode.stop_agent, PyResult.events]
      | false =>
        refine ⟨[], ?_, by simp⟩
        simp [DseNode.stop, DseNode.stop_agent, PyResult.events]
  rcases hsplit with ⟨l₂, hev, hl₂⟩
  have h₁ : ∀ e ∈ (Node.stop running gently).1, agentOp e = false := by
    cases running with
    | false => simp [Node.stop]
    | true =>
      intro e he
      simp [Node.stop] at he
      rw [he]
      rfl
  constructor
  · rw [hev]
    exact signal_before_agent_of_split h₁ hl₂
  · intro hr
    rw [hev, hr]
    simp [Node.stop]

/-- Witness for C5: on a concrete running node with a live agent, the node
signal sits at index 0 and an agent operation at index 1 of the trace, and
the node signal is in the trace. -/
theorem claim_C5_witness :
    (0 : Nat) < 1 ∧
    ExtCall.signalStopNode ∈ (DseNode.stop true true true true true 7).events := by
  constructor
  · exact (claim_C5_amended true true true true 7).1 ⟨0, by decide⟩ ⟨1, by decide⟩
      (by decide) (by decide)
  · exact (claim_C5_amended true true true true 7).2 rfl

/-- Claim C6 (code_bug): the claim — and the spec ("no-op if no agent
directory") — say stopping a node without an agent directory performs no
agent-related operation and does not raise from the agent-stop path.  The
code mis-indents `_stop_agent`: the local `pidfile` is assigned only under
the directory-existence check, while `if os.path.exists(pidfile)` sits
outside it, so a node with no agent directory raises `UnboundLocalError`.
The node process itself was already signaled (and is stopped) because the
base-class stop runs first. -/
theorem claim_C6_bug :
    DseNode.stop_agent false false 7 = PyResult.raised [] PyError.unboundLocalError ∧
    DseNode.stop true true true false false 7 =
      PyResult.raised [ExtCall.signalStopNode] PyError.unboundLocalError :=
  ⟨rfl, rfl⟩

/-- Claim C7 (confirmed): `start` on a node whose recorded pid is live
raises `NodeError` ("... is already running") as its very first action:
the returned trace is empty, so no socket check, no file copy, no spawn
and no pid write has happened — the precondition failure precedes every
side effect. -/
theorem claim_C7 : ∀ (ctx : StartCtx) (o : StartOpts), ctx.running = true →
    DseNode.start ctx o = PyResult.raised [] PyError.nodeError := by
  intro ctx o h
  simp [DseNode.start, h]

/-- Witness for C7: a concrete running node; `start` raises with an empty
effect trace. -/
theorem claim_C7_witness :
    DseNode.start
      { running := true, interfaces := [some "127.0.0.1"], running_peers := [],
        workload := none, authn := "none", cluster_path := "/c", node_path := "/n",
        install_dir := "/i", thrift_ip := "127.0.0.1", hasOpscenter := false,
        baseEnv := [], sockets_free := true, spawn_lives := true }
      { join_ring := true, no_wait := false, update_pid := true, wait_other_notice := false,
        replace_token := none, replace_address := none, jvm_args := [],
        wait_for_binary_proto := false, use_jna := false, debug := false }
      = PyResult.raised [] PyError.nodeError :=
  claim_C7 _ _ rfl

/-- Claim C8 (confirmed): `import_dse_config_files` always performs
copy-then-merge: whatever document was on disk before is irrelevant to the
result (first conjunct — the fresh copy overwrites it before the merge
reads anything); on success the merged document is exactly the overrides
applied to the freshly copied base, and the trace runs update-config,
ensure-directory, copy-base and only then write-merged-yaml (second
conjunct); and concretely an override `{timeout: delete}` over a freshly
copied base `{timeout: 30}` yields a document with no `timeout` key (third
conjunct). -/
theorem claim_C8 :
    (∀ (dirExists : Bool) (prior₁ prior₂ installBase : Doc) (skd : String)
        (cluster selfOpts : List (String × Option Val)),
      DseNode.import_dse_config_files true dirExists prior₁ installBase skd cluster selfOpts =
        DseNode.import_dse_config_files true dirExists prior₂ installBase skd cluster
          selfOpts) ∧
    (∀ (dirExists : Bool) (prior installBase : Doc) (skd : String)
        (cluster selfOpts : List (String × Option Val)) (evs : List CfgEvent) (d : Doc),
      DseNode.import_dse_config_files true dirExists prior installBase skd cluster selfOpts =
        .ok evs d →
      update_dse_yaml installBase skd cluster selfOpts = .ok d ∧
      evs = [CfgEvent.updateConfig] ++ (if dirExists then [] else [CfgEvent.makeDirs]) ++
        [CfgEvent.copyBase, CfgEvent.writeYaml]) ∧
    (DseNode.import_dse_config_files true true [("prior", Val.int 1)]
        [("timeout", Val.int 30)] "KD" [] [("timeout", none)] =
      PyResult.ok [CfgEvent.updateConfig, CfgEvent.copyBase, CfgEvent.writeYaml]
        [("system_key_directory", Val.str "KD")] ∧
      lookupD [("system_key_directory", Val.str "KD")] "timeout" = none) := by
  refine ⟨?_, ?_, rfl, rfl⟩
  · intro dirExists prior₁ prior₂ installBase skd cluster selfOpts
    rfl
  · intro dirExists prior installBase skd cluster selfOpts evs d h
    cases hu : update_dse_yaml installBase skd cluster selfOpts with
    | error e =>
      simp only [DseNode.import_dse_config_files, hu, if_true] at h
      exact PyResult.noConfusion h
    | ok d0 =>
      simp only [DseNode.import_dse_config_files, hu, if_true, PyResult.ok.injEq] at h
      refine ⟨?_, ?_⟩
      · rw [h.2]
      · rw [← h.1]
        cases dirExists <;> rfl

/-- Witness for C8: the successful import on the scenario input, related
back to the merge on the fresh base by `claim_C8`. -/
theorem claim_C8_witness :
    update_dse_yaml [("timeout", Val.int 30)] "KD" [] [("timeout", none)] =
      Except.ok [("system_key_directory", Val.str "KD")] ∧
    [CfgEvent.updateConfig, CfgEvent.copyBase, CfgEvent.writeYaml] =
      [CfgEvent.updateConfig] ++ (if true then [] else [CfgEvent.makeDirs]) ++
        [CfgEvent.copyBase, CfgEvent.writeYaml] :=
  claim_C8.2.1 true [("prior", Val.int 1)] [("timeout", Val.int 30)] "KD" [] [("timeout", none)]
    [CfgEvent.updateConfig, CfgEvent.copyBase, CfgEvent.writeYaml]
    [("system_key_directory", Val.str "KD")] rfl

/-- Claim C9 (confirmed): when the cluster authentication mode is kerberos
the environment assembled by `start` carries `KRB5_CONFIG` (and
`JVM_OPTS`) pointing at the cluster's `krb5.conf`; when the mode is not
kerberos, `start` never sets that entry (it is whatever the base
environment had); the environment handed to the spawned process by a
successful `start` is exactly that assembled environment; and each
credential wrapper (`kinit`, `klist`, `kdestroy`) outside kerberos mode
raises the precondition error with an empty trace — before invoking any
external command. -/
theorem claim_C9 :
    (∀ (ctx : StartCtx) (dbg : Bool) (env : List (String × String)),
      ctx.authn = "kerberos" → DseNode.make_start_env ctx dbg = .ok env →
      lookupD env "KRB5_CONFIG" = some (ctx.cluster_path ++ "/krb5.conf") ∧
      lookupD env "JVM_OPTS" =
        some ("-Djava.security.krb5.conf=" ++ ctx.cluster_path ++ "/krb5.conf")) ∧
    (∀ (ctx : StartCtx) (dbg : Bool) (env : List (String × String)),
      ¬ ctx.authn = "kerberos" → DseNode.make_start_env ctx dbg = .ok env →
      lookupD env "KRB5_CONFIG" = lookupD ctx.baseEnv "KRB5_CONFIG") ∧
    (∀ (ctx : StartCtx) (o : StartOpts) (evs : List ExtCall)
        (r : List String × List (String × String)),
      DseNode.start ctx o = .ok evs r → DseNode.make_start_env ctx o.debug = .ok r.2) ∧
    (∀ (ctx : StartCtx) (principal : String), ¬ ctx.authn = "kerberos" →
      DseNode.kinit ctx principal = PyResult.raised [] PyError.argumentError ∧
      DseNode.klist ctx = PyResult.raised [] PyError.argumentError ∧
      DseNode.kdestroy ctx = PyResult.raised [] PyError.argumentError) := by
  refine ⟨?_, ?_, ?_, ?_⟩
  · intro ctx dbg env hker henv
    cases hE : DseNode.debug_env ctx dbg with
    | error e =>
      simp only [DseNode.make_start_env, hE] at henv
      exact Except.noConfusion henv
    | ok e1 =>
      simp only [DseNode.make_start_env, hE, if_pos hker, Except.ok.injEq] at henv
      rw [← henv]
      constructor
      · exact lookupD_setKey_self _ _ _
      · rw [lookupD_setKey_ne _ (by decide), lookupD_setKey_self]
  · intro ctx dbg env hker henv
    cases hE : DseNode.debug_env ctx dbg with
    | error e =>
      simp only [DseNode.make_start_env, hE] at henv
      exact Except.noConfusion henv
    | ok e1 =>
      simp only [DseNode.make_start_env, hE, if_neg hker, Except.ok.injEq] at henv
      rw [← henv]
      exact debug_env_lookup_ne (by decide) hE
  · intro ctx o evs r h
    by_cases hr : ctx.running = true
    · simp only [DseNode.start, if_pos hr] at h
      exact PyResult.noConfusion h
    · simp only [DseNode.start, if_neg hr] at h
      by_cases hc : (if o.replace_address = none
          then List.map ExtCall.checkSocket (List.filterMap id ctx.interfaces)
          else []) ≠ [] ∧ ¬ ctx.sockets_free = true
      · rw [if_pos hc] at h
        exact PyResult.noConfusion h
      · rw [if_neg hc] at h
        cases hE : DseNode.make_start_env ctx o.debug with
        | error e =>
          simp only [hE] at h
          exact PyResult.noConfusion h
        | ok env =>
          simp only [hE] at h
          by_cases hp : o.update_pid = true ∧ ¬ ctx.spawn_lives = true
          · rw [if_pos hp] at h
            exact PyResult.noConfusion h
          · rw [if_neg hp] at h
            simp only [PyResult.ok.injEq] at h
            rw [← h.2]
  · intro ctx principal hker
    refine ⟨?_, ?_, ?_⟩
    · simp [DseNode.kinit, hker]
    · simp [DseNode.klist, hker]
    · simp [DseNode.kdestroy, hker]

/-- Witness for C9: a kerberos cluster at path `/cl` gets
`KRB5_CONFIG = /cl/krb5.conf` in the start environment; a non-kerberos
cluster leaves the entry as in the base environment; a concrete successful
`start` hands the spawned process exactly the assembled environment; and
`kinit` without kerberos raises before any external command. -/
theorem claim_C9_witness :
    lookupD [("PATH", "/bin"), ("JVM_OPTS", "-Djava.security.krb5.conf=/cl/krb5.conf"),
        ("KRB5_CONFIG", "/cl/krb5.conf")] "KRB5_CONFIG" = some "/cl/krb5.conf" ∧
    lookupD [("PATH", "/bin")] "KRB5_CONFIG" =
      lookupD [("PATH", "/bin")] "KRB5_CONFIG" ∧
    DseNode.make_start_env
      { running := false, interfaces := [some "127.0.0.1"], running_peers := [],
        workload := none, authn := "none", cluster_path := "/cl", node_path := "/n",
        install_dir := "/i", thrift_ip := "127.0.0.1", hasOpscenter := false,
        baseEnv := [("PATH", "/bin")], sockets_free := true, spawn_lives := true }
      false = Except.ok [("PATH", "/bin")] ∧
    DseNode.kinit
      { running := false, interfaces := [some "127.0.0.1"], running_peers := [],
        workload := none, authn := "none", cluster_path := "/cl", node_path := "/n",
        install_dir := "/i", thrift_ip := "127.0.0.1", hasOpscenter := false,
        baseEnv := [("PATH", "/bin")], sockets_free := true, spawn_lives := true }
      "alice" = PyResult.raised [] PyError.argumentError := by
  refine ⟨?_, ?_, ?_, ?_⟩
  · exact (claim_C9.1
      { running := false, interfaces := [], running_peers := [], workload := none,
        authn := "kerberos", cluster_path := "/cl", node_path := "/n", install_dir := "/i",
        thrift_ip := "127.0.0.1", hasOpscenter := false, baseEnv := [("PATH", "/bin")],
        sockets_free := true, spawn_lives := true }
      false
      [("PATH", "/bin"), ("JVM_OPTS", "-Djava.security.krb5.conf=/cl/krb5.conf"),
        ("KRB5_CONFIG", "/cl/krb5.conf")] rfl rfl).1
  · exact claim_C9.2.1
      { running := false, interfaces := [some "127.0.0.1"], running_peers := [],
        workload := none, authn := "none", cluster_path := "/cl", node_path := "/n",
        install_dir := "/i", thrift_ip := "127.0.0.1", hasOpscenter := false,
        baseEnv := [("PATH", "/bin")], sockets_free := true, spawn_lives := true }
      false [("PATH", "/bin")] (by decide) rfl
  · exact claim_C9.2.2.1
      { running := false, interfaces := [some "127.0.0.1"], running_peers := [],
        workload := none, authn := "none", cluster_path := "/cl", node_path := "/n",
        install_dir := "/i", thrift_ip := "127.0.0.1", hasOpscenter := false,
        baseEnv := [("PATH", "/bin")], sockets_free := true, spawn_lives := true }
      { join_ring := true, no_wait := false, update_pid := true, wait_other_notice := false,
        replace_token := none, replace_address := none, jvm_args := [],
        wait_for_binary_proto := false, use_jna := false, debug := false }
      [ExtCall.checkSocket "127.0.0.1", ExtCall.copyFile "/i/bin/dse" "/n/bin",
        ExtCall.chmodExec "/n/bin/dse",
        ExtCall.popen ["/n/bin/dse", "cassandra", "-p", "/n/cassandra.pid",
          "-Dcassandra.join_ring=True", "-Dcassandra.boot_without_jna=true"]
          [("PATH", "/bin")],
        ExtCall.updatePid]
      (["/n/bin/dse", "cassandra", "-p", "/n/cassandra.pid",
        "-Dcassandra.join_ring=True", "-Dcassandra.boot_without_jna=true"],
        [("PATH", "/bin")]) rfl
  · exact (claim_C9.2.2.2
      { running := false, interfaces := [some "127.0.0.1"], running_peers := [],
        workload := none, authn := "none", cluster_path := "/cl", node_path := "/n",
        install_dir := "/i", thrift_ip := "127.0.0.1", hasOpscenter := false,
        baseEnv := [("PATH", "/bin")], sockets_free := true, spawn_lives := true }
      "alice" (by decide)).1

/-- Claim C10, counterexample.  The claim says `set_dse_configuration_options`
with *any* non-`None` values mapping raises the attribute error before
rewriting any config file.  With the empty mapping (`{}` is non-`None`)
the recording loop runs zero times, so the missing attribute is only read
inside `_update_dse_yaml` — after `import_dse_config_files` has already
copied the base config tree over the node's config files: the raise comes
after `copyBase`, not before. -/
theorem claim_C10_counterexample :
    DseNode.set_dse_configuration_options false true [] [] "KD" [] [] (some []) =
      PyResult.raised [CfgEvent.updateConfig, CfgEvent.copyBase] PyError.attributeError ∧
    CfgEvent.copyBase ∈ [CfgEvent.updateConfig, CfgEvent.copyBase] :=
  ⟨rfl, by decide⟩

/-- Claim C10 (corrected): on a freshly constructed node (whose constructor
bound the empty override dict to a local instead of the instance
attribute), `set_dse_configuration_options` with any non-*empty* values
mapping raises `AttributeError` at the first recording step, before any
override is recorded and before any config file is touched (empty trace);
with the empty mapping it still raises `AttributeError`, but only after
the base config tree was copied. -/
theorem claim_C10_amended :
    (∀ (dirExists : Bool) (priorYaml installBase : Doc) (skd : String)
        (cluster stored : List (String × Option Val)) (k : String) (v : Option Val)
        (rest : List (String × Option Val)),
      DseNode.set_dse_configuration_options false dirExists priorYaml installBase skd cluster
        stored (some ((k, v) :: rest)) = PyResult.raised [] PyError.attributeError) ∧
    (∀ (dirExists : Bool) (priorYaml installBase : Doc) (skd : String)
        (cluster stored : List (String × Option Val)),
      DseNode.set_dse_configuration_options false dirExists priorYaml installBase skd cluster
        stored (some []) = PyResult.raised ([CfgEvent.updateConfig] ++
          (if dirExists then [] else [CfgEvent.makeDirs]) ++ [CfgEvent.copyBase])
          PyError.attributeError) := by
  constructor
  · intro dirExists priorYaml installBase skd cluster stored k v rest
    rfl
  · intro dirExists priorYaml installBase skd cluster stored
    cases dirExists <;> rfl
